import Mathlib

/-!
Shallow embedding of `src/modules/coursier.ts` from the scala-steward-action
repository.  Each exported async function of the module is modelled as a pure
Lean function from an abstract environment (outcomes of the external
collaborators: process execution, the cache store, the filesystem) to a trace
of observable events paired with an `Except`-style result, where
`Except.error msg` models a thrown JavaScript `Error` with message `msg` and
`Except.ok` models normal return.
-/

namespace Coursier

/-- Modelled from the spec: the validated non-empty string wrapper imported
from `src/core/types` (file not present under `src/`); only its payload
accessor `value` is used by `coursier.ts`. -/
structure NonEmptyString where
  value : String

/-- Outcome of spawning an external process (`@actions/exec`): its exit code,
the raw stdout chunks delivered to a `stdout` listener, the stdout lines
delivered to a `stdline` listener, and the stderr lines delivered to an
`errline` listener. -/
structure ProcResult where
  exitCode : Int
  stdoutChunks : List String
  stdoutLines : List String
  stderrLines : List String

/-- Observable events: log calls (`@actions/core`), filesystem and path
operations, process invocations and cache-store calls. -/
inductive Event where
  | debug (msg : String)
  | info (msg : String)
  | warn (msg : String)
  | errorLog (msg : String)
  | startGroup (msg : String)
  | endGroup
  | mkdirP (p : String)
  | download (url : String) (dest : String)
  | execCmd (tool : String) (args : List String)
  | addPath (p : String)
  | rmRF (p : String)
  | cacheRestoreCall (paths : List String) (key : String) (restoreKeys : List String)
  | cacheSaveCall (paths : List String) (key : String)
  deriving Repr, DecidableEq

/-- The abstract environment: configuration inputs, the home directory, the
current wall clock (`Date.now()`), and the fallible external collaborators.
`run` gives the outcome of spawning a process; `cacheRestoreOp` and
`cacheSaveOp` are the `@actions/cache` store (which may throw);
`rm` is `io.rmRF` (which may throw); `mkdir` is `io.mkdirP` and
`downloadTool` is `tc.downloadTool` (returning the downloaded path). -/
structure Env where
  getInput : String → String
  homedir : String
  now : Nat
  mkdir : String → Except String Unit
  downloadTool : String → String → Except String String
  run : String → List String → ProcResult
  cacheRestoreOp : List String → String → List String → Except String (Option String)
  cacheSaveOp : List String → String → Except String Unit
  rm : String → Except String Unit

/-- Model of `path.join(os.homedir(), 'bin')`. -/
def binDir (env : Env) : String := env.homedir ++ "/bin"

/-- Model of `path.join(os.homedir(), '.cache', 'coursier', 'v1')`. -/
def coursierCachePath (env : Env) : String := env.homedir ++ "/.cache/coursier/v1"

/-- The qualified name `version ? app + ":" + version.value : app` built by
`launch`. -/
def qualifiedName (app : String) (version : Option NonEmptyString) : String :=
  match version with
  | some v => app ++ ":" ++ v.value
  | none => app

/-- The argument flattening performed by `launch`:
`args.flatMap(arg => typeof arg === 'string' ? [arg] : arg)`.  A TypeScript
`string | string[]` element is modelled as `Sum String (List String)`. -/
def flattenArgs : List (Sum String (List String)) → List String
  | [] => []
  | Sum.inl s :: rest => s :: flattenArgs rest
  | Sum.inr l :: rest => l ++ flattenArgs rest

/-- The full argument vector `launch` passes to `cs`. -/
def launchArgs (app : String) (version : Option NonEmptyString)
    (args : List (Sum String (List String))) : List String :=
  ["launch", "--contrib", "-r", "sonatype:snapshots", qualifiedName app version, "--"]
    ++ flattenArgs args

/-- Model of `launch(app, version, args)`: builds the qualified name, invokes
`cs launch --contrib -r sonatype:snapshots <name> -- <flattened args>` with
`ignoreReturnCode`, forwards stdout lines to info logging and stderr lines to
error logging, and throws `Launching <name> failed` iff the exit code is
non-zero. -/
def launch (env : Env) (app : String) (version : Option NonEmptyString)
    (args : List (Sum String (List String))) : List Event × Except String Unit :=
  let name := qualifiedName app version
  let r := env.run "cs" (launchArgs app version args)
  let evs := Event.startGroup ("Launching " ++ name)
      :: Event.execCmd "cs" (launchArgs app version args)
      :: (r.stdoutLines.map Event.info ++ r.stderrLines.map Event.errorLog
          ++ [Event.endGroup])
  if r.exitCode = 0 then (evs, Except.ok ())
  else (evs, Except.error ("Launching " ++ name ++ " failed"))

/-- Model of `launch` with its `args` parameter omitted: the TypeScript declaration
defaults `args` to `[]`. -/
def launchNoArgs (env : Env) (app : String) (version : Option NonEmptyString) :
    List Event × Except String Unit :=
  launch env app version []

/-- The primary cache key `coursier-cache-<hash>-<Date.now()>` shared by
`restoreCache` and `saveCache`. -/
def cacheKey (hash : String) (now : Nat) : String :=
  "coursier-cache-" ++ hash ++ "-" ++ Nat.repr now

/-- The fallback (restore) keys passed by `restoreCache`. -/
def fallbackKeys (hash : String) : List String :=
  ["coursier-cache-" ++ hash, "coursier-cache-"]

/-- Model of `restoreCache(hash)`: calls the cache store with the primary key and the
two fallback keys, logs hit/miss; any store failure is caught, its message
logged at debug level, a warning emitted, and the function returns
normally. -/
def restoreCache (env : Env) (hash : String) : List Event × Except String Unit :=
  let key := cacheKey hash env.now
  let paths := [coursierCachePath env]
  let evs0 := [Event.startGroup "Trying to restore Coursier\x27s cache...",
               Event.cacheRestoreCall paths key (fallbackKeys hash)]
  match env.cacheRestoreOp paths key (fallbackKeys hash) with
  | Except.ok cacheHit =>
      (evs0 ++ [Event.info (if cacheHit.isSome then "Coursier cache was restored"
                            else "Coursier cache wasn\x27t found"),
                Event.endGroup],
       Except.ok ())
  | Except.error e =>
      (evs0 ++ [Event.debug e, Event.warn "Unable to restore Coursier\x27s cache",
                Event.endGroup],
       Except.ok ())

/-- Model of `saveCache(hash)`: calls the cache store with the primary key; any store
failure is caught, its message logged at debug level, a warning emitted, and
the function returns normally. -/
def saveCache (env : Env) (hash : String) : List Event × Except String Unit :=
  let key := cacheKey hash env.now
  let paths := [coursierCachePath env]
  let evs0 := [Event.startGroup "Saving Coursier\x27s cache...",
               Event.cacheSaveCall paths key]
  match env.cacheSaveOp paths key with
  | Except.ok _ =>
      (evs0 ++ [Event.info "Coursier cache has been saved", Event.endGroup],
       Except.ok ())
  | Except.error e =>
      (evs0 ++ [Event.debug e, Event.warn "Unable to save Coursier\x27s cache",
                Event.endGroup],
       Except.ok ())

/-- The internal `execute(tool, ...args)` helper: runs the tool with
`ignoreReturnCode`, concatenates the stdout chunks, forwards stderr lines to
debug logging, and throws iff the exit code is non-zero, with the full
command line in the message. -/
def execute (env : Env) (tool : String) (args : List String) :
    List Event × Except String String :=
  let r := env.run tool args
  let evs := Event.execCmd tool args :: r.stderrLines.map Event.debug
  if r.exitCode = 0 then
    (evs, Except.ok (String.join r.stdoutChunks))
  else
    (evs, Except.error ("There was an error while executing \x27" ++ tool ++ " "
      ++ String.intercalate " " args ++ "\x27"))

/-- Sequencing of trace-producing fallible steps: events accumulate; an error
short-circuits (models `await` chains where a rejection propagates). -/
def andThen {α β : Type} (x : List Event × Except String α)
    (f : α → List Event × Except String β) : List Event × Except String β :=
  match x with
  | (evs, Except.error e) => (evs, Except.error e)
  | (evs, Except.ok a) => ((evs ++ (f a).1 : List Event), (f a).2)

/-- Model of `@actions/exec` without `ignoreReturnCode` and without listeners: the call
rejects when the exit code is non-zero (used for the gzip and chmod steps of
`install`). -/
def execOrFail (env : Env) (tool : String) (args : List String) :
    List Event × Except String Unit :=
  let r := env.run tool args
  if r.exitCode = 0 then ([Event.execCmd tool args], Except.ok ())
  else ([Event.execCmd tool args],
    Except.error ("The process \x27" ++ tool ++ "\x27 failed with exit code "
      ++ toString r.exitCode))

/-- The fixed argument vector of the `cs setup` invocation in `install`. -/
def setupArgs (binPath : String) : List String :=
  ["setup", "--yes", "--jvm", "adoptium:17", "--apps", "scalafmt,scalafix",
   "--install-dir", binPath]

/-- The `cs setup` step of `install`: stdout and stderr lines go to debug
logging; the call rejects when the exit code is non-zero. -/
def execSetup (env : Env) (binPath : String) : List Event × Except String Unit :=
  let r := env.run "cs" (setupArgs binPath)
  let evs := Event.execCmd "cs" (setupArgs binPath)
      :: (r.stdoutLines.map Event.debug ++ r.stderrLines.map Event.debug)
  if r.exitCode = 0 then (evs, Except.ok ())
  else (evs,
    Except.error ("The process \x27cs\x27 failed with exit code " ++ toString r.exitCode))

/-- Model of `scalafmtVersion.replace(/^scalafmt /, '')`: strips one leading
`scalafmt ` prefix if present. -/
def stripScalafmt (s : String) : String :=
  if s.startsWith "scalafmt " then s.drop 9 else s

/-- The `try` block of `install()`: mkdir, download, gunzip, chmod, addPath,
`cs setup`, then three version queries through `execute`. -/
def installBody (env : Env) : List Event × Except String Unit :=
  let coursierUrl := env.getInput "coursier-cli-url"
  let binPath := binDir env
  andThen ([Event.debug ("Installing coursier from " ++ coursierUrl),
            Event.mkdirP binPath], env.mkdir binPath) (fun _ =>
  andThen ([Event.download coursierUrl (binPath ++ "/cs.gz")],
           env.downloadTool coursierUrl (binPath ++ "/cs.gz")) (fun zip =>
  andThen (execOrFail env "gzip" ["-d", zip]) (fun _ =>
  andThen (execOrFail env "chmod" ["+x", binPath ++ "/cs"]) (fun _ =>
  andThen ([Event.addPath binPath], Except.ok ()) (fun _ =>
  andThen (execSetup env binPath) (fun _ =>
  andThen (execute env "cs" ["version"]) (fun coursierVersion =>
  andThen ([Event.info ("✓ Coursier installed, version: " ++ coursierVersion.trim)],
           Except.ok ()) (fun _ =>
  andThen (execute env "scalafmt" ["--version"]) (fun scalafmtVersion =>
  andThen ([Event.info ("✓ Scalafmt installed, version: "
            ++ (stripScalafmt scalafmtVersion).trim)], Except.ok ()) (fun _ =>
  andThen (execute env "scalafix" ["--version"]) (fun scalafixVersion =>
  ([Event.info ("✓ Scalafix installed, version: " ++ scalafixVersion.trim)],
   Except.ok ()))))))))))))

/-- Model of `install()`: runs the body; any failure is caught, its message logged at
debug level, and a single generic error is thrown. -/
def install (env : Env) : List Event × Except String Unit :=
  match installBody env with
  | (evs, Except.ok _) => (evs, Except.ok ())
  | (evs, Except.error e) =>
      (evs ++ [Event.debug e],
       Except.error "Unable to install coursier or managed tools")

/-- Model of `remove()`: deletes the cache directory, runs `cs uninstall --all` with
`ignoreReturnCode` (stdout and stderr lines to debug logging), then deletes
the three installed binaries.  There is no try/catch: a rejection from a
deletion propagates to the caller. -/
def remove (env : Env) : List Event × Except String Unit :=
  andThen ([Event.rmRF (coursierCachePath env)],
           env.rm (coursierCachePath env)) (fun _ =>
  andThen (Event.execCmd "cs" ["uninstall", "--all"]
      :: ((env.run "cs" ["uninstall", "--all"]).stdoutLines.map Event.debug
          ++ (env.run "cs" ["uninstall", "--all"]).stderrLines.map Event.debug),
      Except.ok ()) (fun _ =>
  andThen ([Event.rmRF (binDir env ++ "/cs")],
           env.rm (binDir env ++ "/cs")) (fun _ =>
  andThen ([Event.rmRF (binDir env ++ "/scalafmt")],
           env.rm (binDir env ++ "/scalafmt")) (fun _ =>
  ([Event.rmRF (binDir env ++ "/scalafix")],
   env.rm (binDir env ++ "/scalafix"))))))

/-! Decimal representation helpers.

Here `Nat.repr` (the model of JavaScript `Date.now().toString()`) is characterised
by a structurally recursive decimal rendering, from which the digit-pattern
and injectivity facts needed about the cache key follow. -/

/-- Canonical decimal character rendering of a natural number. -/
def decRepr (n : Nat) : List Char :=
  if n < 10 then [Nat.digitChar n]
  else decRepr (n / 10) ++ [Nat.digitChar (n % 10)]
  decreasing_by exact Nat.div_lt_self (by omega) (by omega)

/-- Decimal decoding, the left inverse of `decRepr`. -/
def decDecode (acc : Nat) : List Char → Nat
  | [] => acc
  | c :: rest => decDecode (acc * 10 + (c.toNat - 48)) rest

/-- Spec-side description of argument flattening: the ordered concatenation
of the mixed list with each group inlined in place (to be compared with the
source-side `flattenArgs`). -/
def inlineGroups (args : List (Sum String (List String))) : List String :=
  (args.map (fun a => match a with
    | Sum.inl s => [s]
    | Sum.inr l => l)).flatten

/-- Projection of a trace onto its filesystem-deletion and
process-invocation events. -/
def fsEvents : List Event → List Event
  | [] => []
  | Event.rmRF p :: rest => Event.rmRF p :: fsEvents rest
  | Event.execCmd t a :: rest => Event.execCmd t a :: fsEvents rest
  | _ :: rest => fsEvents rest

/-- The four paths `remove()` deletes. -/
def rmTargets (env : Env) : List String :=
  [coursierCachePath env, binDir env ++ "/cs", binDir env ++ "/scalafmt",
   binDir env ++ "/scalafix"]

/-- A concrete benign environment: every collaborator succeeds and every
process exits with code 0. -/
def envBase : Env :=
  { getInput := fun _ => "http://cs.example/cs.gz",
    homedir := "/home/me",
    now := 42,
    mkdir := fun _ => Except.ok (),
    downloadTool := fun _ dest => Except.ok dest,
    run := fun _ _ =>
      { exitCode := 0, stdoutChunks := ["out"], stdoutLines := [],
        stderrLines := [] },
    cacheRestoreOp := fun _ _ _ => Except.ok (some "hit"),
    cacheSaveOp := fun _ _ => Except.ok (),
    rm := fun _ => Except.ok () }

/-- A concrete environment whose cache store throws. -/
def envCacheFail : Env :=
  { envBase with
    cacheRestoreOp := fun _ _ _ => Except.error "store down",
    cacheSaveOp := fun _ _ => Except.error "store down" }

/-- A concrete environment observed at wall clock 1. -/
def envNow1 : Env := { envBase with now := 1 }

/-- A concrete environment observed at wall clock 2. -/
def envNow2 : Env := { envBase with now := 2 }

/-- A concrete environment whose directory creation fails. -/
def envBadMk : Env :=
  { envBase with mkdir := fun _ => Except.error "disk full" }

/-- A concrete environment whose filesystem deletions throw. -/
def envRmFail : Env :=
  { envBase with rm := fun _ => Except.error "EACCES" }

/-- A concrete environment like `envBase` but whose processes exit with a
non-zero code. -/
def envRunWeird : Env :=
  { envBase with
    run := fun _ _ =>
      { exitCode := 77, stdoutChunks := [], stdoutLines := ["x"],
        stderrLines := ["y"] } }

theorem decDecode_append (acc : Nat) (l1 l2 : List Char) :
    decDecode acc (l1 ++ l2) = decDecode (decDecode acc l1) l2 := by
  induction l1 generalizing acc with
  | nil => rfl
  | cons c rest ih =>
    rw [List.cons_append]
    show decDecode (acc * 10 + (c.toNat - 48)) (rest ++ l2) = _
    rw [ih]
    rfl

theorem decRepr_lt (n : Nat) (h : n < 10) : decRepr n = [Nat.digitChar n] := by
  rw [decRepr, if_pos h]

theorem decRepr_ge (n : Nat) (h : 10 ≤ n) :
    decRepr n = decRepr (n / 10) ++ [Nat.digitChar (n % 10)] := by
  conv_lhs => rw [decRepr]
  rw [if_neg (show ¬n < 10 by omega)]

theorem digitChar_isDigit {m : Nat} (h : m < 10) : (Nat.digitChar m).isDigit = true := by
  interval_cases m <;> decide

theorem digitChar_toNat {m : Nat} (h : m < 10) : (Nat.digitChar m).toNat - 48 = m := by
  interval_cases m <;> decide

theorem decRepr_digits (n : Nat) : ∀ c ∈ decRepr n, c.isDigit = true := by
  induction n using Nat.strong_induction_on with
  | _ n ih =>
    rw [decRepr]
    split
    · next h =>
      intro c hc
      rw [List.mem_singleton] at hc
      subst hc
      exact digitChar_isDigit h
    · next h =>
      intro c hc
      rcases List.mem_append.mp hc with h1 | h2
      · exact ih (n / 10) (Nat.div_lt_self (by omega) (by omega)) c h1
      · rw [List.mem_singleton] at h2
        subst h2
        exact digitChar_isDigit (Nat.mod_lt _ (by omega))

theorem decDecode_decRepr (n : Nat) :
    ∀ acc, decDecode acc (decRepr n) = acc * 10 ^ (decRepr n).length + n := by
  induction n using Nat.strong_induction_on with
  | _ n ih =>
    intro acc
    by_cases h : n < 10
    · rw [decRepr_lt n h]
      show acc * 10 + ((Nat.digitChar n).toNat - 48) = acc * 10 ^ [Nat.digitChar n].length + n
      rw [digitChar_toNat h, List.length_singleton, pow_one]
    · rw [decRepr_ge n (by omega)]
      rw [decDecode_append]
      rw [ih (n / 10) (Nat.div_lt_self (by omega) (by omega)) acc]
      show (acc * 10 ^ (decRepr (n / 10)).length + n / 10) * 10
            + ((Nat.digitChar (n % 10)).toNat - 48)
          = acc * 10 ^ (decRepr (n / 10) ++ [Nat.digitChar (n % 10)]).length + n
      rw [digitChar_toNat (Nat.mod_lt _ (by omega)), List.length_append,
          List.length_singleton]
      have hdm : 10 * (n / 10) + n % 10 = n := Nat.div_add_mod n 10
      calc (acc * 10 ^ (decRepr (n / 10)).length + n / 10) * 10 + n % 10
          = acc * (10 ^ (decRepr (n / 10)).length * 10) + (10 * (n / 10) + n % 10) := by
            ring
        _ = acc * 10 ^ ((decRepr (n / 10)).length + 1) + n := by
            rw [hdm, pow_succ]

theorem decRepr_inj {m n : Nat} (h : decRepr m = decRepr n) : m = n := by
  have hm := decDecode_decRepr m 0
  have hn := decDecode_decRepr n 0
  rw [h] at hm
  simp only [Nat.zero_mul, Nat.zero_add] at hm hn
  exact hm.symm.trans hn

theorem toDigitsCore_eq_decRepr (fuel : Nat) :
    ∀ n acc, n < fuel → Nat.toDigitsCore 10 fuel n acc = decRepr n ++ acc := by
  induction fuel with
  | zero => intro n acc h; omega
  | succ f ih =>
    intro n acc h
    simp only [Nat.toDigitsCore]
    by_cases hq : n / 10 = 0
    · have hlt : n < 10 := by omega
      rw [if_pos hq, Nat.mod_eq_of_lt hlt, decRepr_lt n hlt]
      rfl
    · have hge : 10 ≤ n := by
        rcases Nat.lt_or_ge n 10 with hl | hg
        · exact absurd (Nat.div_eq_of_lt hl) hq
        · exact hg
      have hlt2 : n / 10 < f := by
        have h1 : n / 10 < n := Nat.div_lt_self (by omega) (by omega)
        omega
      rw [if_neg hq, ih (n / 10) (Nat.digitChar (n % 10) :: acc) hlt2]
      rw [decRepr_ge n hge]
      simp

theorem natRepr_eq_decRepr (n : Nat) : Nat.repr n = (decRepr n).asString := by
  show (Nat.toDigits 10 n).asString = (decRepr n).asString
  rw [Nat.toDigits, toDigitsCore_eq_decRepr (n + 1) n [] (Nat.lt_succ_self n)]
  rw [List.append_nil]

theorem natRepr_data (n : Nat) : (Nat.repr n).data = decRepr n := by
  rw [natRepr_eq_decRepr]
  rfl

theorem natRepr_inj {m n : Nat} (h : Nat.repr m = Nat.repr n) : m = n := by
  refine decRepr_inj ?_
  rw [← natRepr_data, ← natRepr_data, h]

theorem natRepr_digits (n : Nat) : (Nat.repr n).data.all Char.isDigit = true := by
  rw [natRepr_data, List.all_eq_true]
  exact decRepr_digits n

theorem cacheKey_now_inj {h : String} {n1 n2 : Nat}
    (he : cacheKey h n1 = cacheKey h n2) : n1 = n2 := by
  have hd := congrArg String.data he
  simp only [cacheKey, String.data_append, List.append_cancel_left_eq] at hd
  exact natRepr_inj (String.ext hd)

theorem flattenArgs_eq_inlineGroups (args : List (Sum String (List String))) :
    flattenArgs args = inlineGroups args := by
  induction args with
  | nil => rfl
  | cons a rest ih =>
    cases a with
    | inl s => simp [flattenArgs, inlineGroups, ih]
    | inr l => simp [flattenArgs, inlineGroups, ih]

/-- C1: `launch(app, v, args)` constructs the qualified name as `app` when
the version is absent and as `app:v` when present; whenever the underlying
process exits non-zero, `launch` throws an error whose message contains that
exact qualified name, and on exit code zero it returns normally. -/
theorem launch_qualified_name_and_failure (env : Env) (app : String)
    (v : NonEmptyString) (version : Option NonEmptyString)
    (args : List (Sum String (List String))) :
    qualifiedName app none = app ∧
    qualifiedName app (some v) = app ++ ":" ++ v.value ∧
    ((launch env app version args).2
        = Except.error ("Launching " ++ qualifiedName app version ++ " failed")
      ↔ (env.run "cs" (launchArgs app version args)).exitCode ≠ 0) ∧
    ((launch env app version args).2 = Except.ok ()
      ↔ (env.run "cs" (launchArgs app version args)).exitCode = 0) ∧
    (∃ s t, "Launching " ++ qualifiedName app version ++ " failed"
        = s ++ qualifiedName app version ++ t) := by
  refine ⟨rfl, rfl, ?_, ?_, ⟨"Launching ", " failed", rfl⟩⟩ <;>
    by_cases hc : (env.run "cs" (launchArgs app version args)).exitCode = 0 <;>
      simp [launch, hc]

/-- C5: the argument sequence `launch` passes to the tool after the `--`
separator is the ordered concatenation of the mixed list with each group
inlined in place; e.g. `["a", ["b","c"], "d"]` yields `a b c d`. -/
theorem launch_inlines_argument_groups (env : Env) (app : String)
    (version : Option NonEmptyString) (args : List (Sum String (List String))) :
    launchArgs app version args
      = ["launch", "--contrib", "-r", "sonatype:snapshots",
         qualifiedName app version, "--"] ++ inlineGroups args ∧
    Event.execCmd "cs" (["launch", "--contrib", "-r", "sonatype:snapshots",
        qualifiedName app version, "--"] ++ inlineGroups args)
      ∈ (launch env app version args).1 ∧
    flattenArgs [Sum.inl "a", Sum.inr ["b", "c"], Sum.inl "d"]
      = ["a", "b", "c", "d"] := by
  refine ⟨by simp [launchArgs, flattenArgs_eq_inlineGroups], ?_, rfl⟩
  simp only [launch, launchArgs, flattenArgs_eq_inlineGroups]
  split <;> simp

/-- C9: with the argument list omitted, `args` defaults to the empty list and
the tool is invoked with exactly the fixed subcommand sequence and nothing
after the `--` separator. -/
theorem launch_omitted_args_fixed_sequence (env : Env) (app : String)
    (version : Option NonEmptyString) :
    launchNoArgs env app version = launch env app version [] ∧
    launchArgs app version []
      = ["launch", "--contrib", "-r", "sonatype:snapshots",
         qualifiedName app version, "--"] ∧
    Event.execCmd "cs" ["launch", "--contrib", "-r", "sonatype:snapshots",
        qualifiedName app version, "--"] ∈ (launchNoArgs env app version).1 := by
  refine ⟨rfl, by simp [launchArgs, flattenArgs], ?_⟩
  simp only [launchNoArgs, launch, launchArgs, flattenArgs]
  split <;> simp

/-- C7: the internal `execute` helper returns the stdout chunks concatenated
(not line-split) when the exit code is zero, forwards stderr lines to debug
logging, and throws exactly when the exit code is non-zero, with a message
containing the full command line (tool name and arguments joined by
spaces). -/
theorem execute_returns_output_or_names_command (env : Env) (tool : String)
    (args : List String) :
    ((execute env tool args).2
        = Except.ok (String.join (env.run tool args).stdoutChunks)
      ↔ (env.run tool args).exitCode = 0) ∧
    ((execute env tool args).2
        = Except.error ("There was an error while executing \x27" ++ tool ++ " "
            ++ String.intercalate " " args ++ "\x27")
      ↔ (env.run tool args).exitCode ≠ 0) ∧
    ((∃ e, (execute env tool args).2 = Except.error e)
      ↔ (env.run tool args).exitCode ≠ 0) ∧
    (execute env tool args).1
      = Event.execCmd tool args :: (env.run tool args).stderrLines.map Event.debug ∧
    (∃ s t, "There was an error while executing \x27" ++ tool ++ " "
          ++ String.intercalate " " args ++ "\x27"
        = s ++ (tool ++ " " ++ String.intercalate " " args) ++ t) := by
  refine ⟨?_, ?_, ?_, ?_, ⟨"There was an error while executing \x27", "\x27",
    by simp [String.append_assoc]⟩⟩ <;>
    by_cases hc : (env.run tool args).exitCode = 0 <;>
      simp [execute, hc]

/-- C2: `restoreCache(hash)` and `saveCache(hash)` return normally whatever
the underlying cache store does; on any store failure each logs the error
message at debug level, emits a warning, and returns without throwing. -/
theorem cache_ops_never_throw (env : Env) (hash : String) :
    (restoreCache env hash).2 = Except.ok () ∧
    (saveCache env hash).2 = Except.ok () ∧
    (∀ e, env.cacheRestoreOp [coursierCachePath env] (cacheKey hash env.now)
        (fallbackKeys hash) = Except.error e →
      Event.debug e ∈ (restoreCache env hash).1 ∧
      Event.warn "Unable to restore Coursier\x27s cache" ∈ (restoreCache env hash).1) ∧
    (∀ e, env.cacheSaveOp [coursierCachePath env] (cacheKey hash env.now)
        = Except.error e →
      Event.debug e ∈ (saveCache env hash).1 ∧
      Event.warn "Unable to save Coursier\x27s cache" ∈ (saveCache env hash).1) := by
  refine ⟨?_, ?_, ?_, ?_⟩
  · cases hr : env.cacheRestoreOp [coursierCachePath env] (cacheKey hash env.now)
        (fallbackKeys hash) <;> simp [restoreCache, hr]
  · cases hs : env.cacheSaveOp [coursierCachePath env] (cacheKey hash env.now) <;>
      simp [saveCache, hs]
  · intro e he
    constructor <;> simp [restoreCache, he]
  · intro e he
    constructor <;> simp [saveCache, he]

theorem cache_ops_never_throw_witness :
    (restoreCache envCacheFail "abc").2 = Except.ok () ∧
    (saveCache envCacheFail "abc").2 = Except.ok () ∧
    Event.debug "store down" ∈ (restoreCache envCacheFail "abc").1 ∧
    Event.warn "Unable to restore Coursier\x27s cache"
      ∈ (restoreCache envCacheFail "abc").1 ∧
    Event.debug "store down" ∈ (saveCache envCacheFail "abc").1 ∧
    Event.warn "Unable to save Coursier\x27s cache"
      ∈ (saveCache envCacheFail "abc").1 := by
  have h := cache_ops_never_throw envCacheFail "abc"
  exact ⟨h.1, h.2.1, (h.2.2.1 "store down" rfl).1, (h.2.2.1 "store down" rfl).2,
    (h.2.2.2 "store down" rfl).1, (h.2.2.2 "store down" rfl).2⟩

/-- C3: the primary key passed to the cache store is
`coursier-cache-<hash>-<digits>` (the digits being the decimal timestamp),
and the fallback keys passed by `restoreCache` are exactly
`coursier-cache-<hash>` and `coursier-cache-` in that order. -/
theorem cache_key_pattern (env : Env) (hash : String) :
    Event.cacheRestoreCall [coursierCachePath env] (cacheKey hash env.now)
        ["coursier-cache-" ++ hash, "coursier-cache-"] ∈ (restoreCache env hash).1 ∧
    Event.cacheSaveCall [coursierCachePath env] (cacheKey hash env.now)
        ∈ (saveCache env hash).1 ∧
    cacheKey hash env.now = "coursier-cache-" ++ hash ++ "-" ++ Nat.repr env.now ∧
    (Nat.repr env.now).data.all Char.isDigit = true ∧
    fallbackKeys hash = ["coursier-cache-" ++ hash, "coursier-cache-"] := by
  refine ⟨?_, ?_, rfl, natRepr_digits env.now, rfl⟩
  · simp only [restoreCache, fallbackKeys]
    split <;> simp
  · simp only [saveCache]
    split <;> simp

/-- C8: the primary key built by `restoreCache` and `saveCache` embeds the
current wall-clock timestamp, so two invocations at distinct timestamps
construct distinct primary keys even for the same hash; an exact primary-key
match between a save and a restore of the same hash is impossible unless
their timestamps coincide. -/
theorem cache_primary_key_timestamped (hash : String) (env1 env2 : Env)
    (hne : env1.now ≠ env2.now) :
    Event.cacheSaveCall [coursierCachePath env1] (cacheKey hash env1.now)
        ∈ (saveCache env1 hash).1 ∧
    Event.cacheRestoreCall [coursierCachePath env2] (cacheKey hash env2.now)
        (fallbackKeys hash) ∈ (restoreCache env2 hash).1 ∧
    cacheKey hash env1.now ≠ cacheKey hash env2.now := by
  refine ⟨?_, ?_, fun hk => hne (cacheKey_now_inj hk)⟩
  · cases hs : env1.cacheSaveOp [coursierCachePath env1] (cacheKey hash env1.now) <;>
      simp [saveCache, hs]
  · cases hr : env2.cacheRestoreOp [coursierCachePath env2] (cacheKey hash env2.now)
        (fallbackKeys hash) <;> simp [restoreCache, hr]

theorem cache_primary_key_timestamped_witness :
    Event.cacheSaveCall [coursierCachePath envNow1] (cacheKey "abc" 1)
        ∈ (saveCache envNow1 "abc").1 ∧
    Event.cacheRestoreCall [coursierCachePath envNow2] (cacheKey "abc" 2)
        (fallbackKeys "abc") ∈ (restoreCache envNow2 "abc").1 ∧
    cacheKey "abc" 1 ≠ cacheKey "abc" 2 := by
  have h := cache_primary_key_timestamped "abc" envNow1 envNow2 (by decide)
  exact h

/-- C4: `install()` either completes having placed the three executables in
the target binary directory (download and gunzip and chmod of `cs`, plus the
setup invocation installing `scalafmt` and `scalafix` into that directory)
and having added that directory to the search path, or, when any step fails,
it logs the original message at debug level only and throws the single
generic installation-failed error, which does not carry the original
detail. -/
theorem install_places_tools_or_generic_error (env : Env) :
    ((install env).2 = Except.ok () →
      Event.download (env.getInput "coursier-cli-url") (binDir env ++ "/cs.gz")
          ∈ (install env).1 ∧
      (∃ z, Event.execCmd "gzip" ["-d", z] ∈ (install env).1) ∧
      Event.execCmd "chmod" ["+x", binDir env ++ "/cs"] ∈ (install env).1 ∧
      Event.addPath (binDir env) ∈ (install env).1 ∧
      Event.execCmd "cs" (setupArgs (binDir env)) ∈ (install env).1 ∧
      Event.execCmd "cs" ["version"] ∈ (install env).1 ∧
      Event.execCmd "scalafmt" ["--version"] ∈ (install env).1 ∧
      Event.execCmd "scalafix" ["--version"] ∈ (install env).1) ∧
    (∀ m, (install env).2 = Except.error m →
      m = "Unable to install coursier or managed tools" ∧
      ∃ e, (installBody env).2 = Except.error e ∧
        (install env).1 = (installBody env).1 ++ [Event.debug e]) := by
  constructor
  · intro hok
    have hb2 : (installBody env).2 = Except.ok () := by
      rcases hb : installBody env with ⟨evs, r⟩
      cases r with
      | error e => simp [install, hb] at hok
      | ok u => simp [hb]
    have htr : (install env).1 = (installBody env).1 := by
      rcases hb : installBody env with ⟨evs, r⟩
      cases r with
      | error e => simp [hb] at hb2
      | ok u => simp [install, hb]
    rw [htr]
    rcases hmk : env.mkdir (binDir env) with e | u
    · exfalso
      simp [installBody, andThen, hmk] at hb2
    rcases hdl : env.downloadTool (env.getInput "coursier-cli-url")
        (binDir env ++ "/cs.gz") with e | zip
    · exfalso
      simp [installBody, andThen, hmk, hdl] at hb2
    by_cases h3 : (env.run "gzip" ["-d", zip]).exitCode = 0
    case neg =>
      exfalso
      simp [installBody, andThen, execOrFail, hmk, hdl, h3] at hb2
    by_cases h4 : (env.run "chmod" ["+x", binDir env ++ "/cs"]).exitCode = 0
    case neg =>
      exfalso
      simp [installBody, andThen, execOrFail, hmk, hdl, h3, h4] at hb2
    by_cases h6 : (env.run "cs" (setupArgs (binDir env))).exitCode = 0
    case neg =>
      exfalso
      simp [installBody, andThen, execOrFail, execSetup, hmk, hdl, h3, h4, h6] at hb2
    by_cases h7 : (env.run "cs" ["version"]).exitCode = 0
    case neg =>
      exfalso
      simp [installBody, andThen, execOrFail, execSetup, execute,
        hmk, hdl, h3, h4, h6, h7] at hb2
    by_cases h8 : (env.run "scalafmt" ["--version"]).exitCode = 0
    case neg =>
      exfalso
      simp [installBody, andThen, execOrFail, execSetup, execute,
        hmk, hdl, h3, h4, h6, h7, h8] at hb2
    by_cases h9 : (env.run "scalafix" ["--version"]).exitCode = 0
    case neg =>
      exfalso
      simp [installBody, andThen, execOrFail, execSetup, execute,
        hmk, hdl, h3, h4, h6, h7, h8, h9] at hb2
    refine ⟨?_, ⟨zip, ?_⟩, ?_, ?_, ?_, ?_, ?_, ?_⟩ <;>
      simp [installBody, andThen, execOrFail, execSetup, execute,
        hmk, hdl, h3, h4, h6, h7, h8, h9]
  · intro m hm
    rcases hb : installBody env with ⟨evs, r⟩
    cases r with
    | ok u => simp [install, hb] at hm
    | error e =>
      have hm2 : m = "Unable to install coursier or managed tools" := by
        simp [install, hb] at hm
        exact hm.symm
      refine ⟨hm2, e, rfl, ?_⟩
      simp [install, hb]

theorem install_places_tools_or_generic_error_witness :
    Event.addPath (binDir envBase) ∈ (install envBase).1 ∧
    Event.execCmd "cs" (setupArgs (binDir envBase)) ∈ (install envBase).1 ∧
    (install envBadMk).1 = (installBody envBadMk).1 ++ [Event.debug "disk full"] := by
  have h1 := (install_places_tools_or_generic_error envBase).1 rfl
  have h2 := (install_places_tools_or_generic_error envBadMk).2
      "Unable to install coursier or managed tools" rfl
  obtain ⟨-, e, he, htr⟩ := h2
  have hdf : (installBody envBadMk).2 = Except.error "disk full" := rfl
  rw [he] at hdf
  injection hdf with h3
  refine ⟨h1.2.2.2.1, h1.2.2.2.2.1, ?_⟩
  rw [htr, h3]

theorem fsEvents_append (l1 l2 : List Event) :
    fsEvents (l1 ++ l2) = fsEvents l1 ++ fsEvents l2 := by
  induction l1 with
  | nil => rfl
  | cons e rest ih => cases e <;> simp [fsEvents, ih]

theorem fsEvents_map_debug (l : List String) :
    fsEvents (l.map Event.debug) = [] := by
  induction l with
  | nil => rfl
  | cons s rest ih => simp [fsEvents, ih]

/-- C6 counterexample: in an environment whose underlying remover throws
(e.g. a permission failure), `remove()` propagates the error to its caller
instead of swallowing it — the TypeScript function has no try/catch around
its deletions. -/
theorem remove_can_throw_counterexample :
    (remove envRmFail).2 = Except.error "EACCES" := rfl

/-- C6 amended: `remove()` never inspects the uninstall subcommand's exit
code (its result is unchanged under any change of process outcomes), and
when every deletion call succeeds — in particular when no installation
exists, since the underlying force-remove reports success on missing
targets — `remove()` returns without error; but a deletion call that itself
throws propagates its error to the caller. -/
theorem remove_ok_when_deletions_succeed (env env2 : Env)
    (hrm : env.rm = env2.rm) (hh : env.homedir = env2.homedir)
    (hc : env.rm (coursierCachePath env) = Except.ok ())
    (h1 : env.rm (binDir env ++ "/cs") = Except.ok ())
    (h2 : env.rm (binDir env ++ "/scalafmt") = Except.ok ())
    (h3 : env.rm (binDir env ++ "/scalafix") = Except.ok ()) :
    (remove env).2 = Except.ok () ∧ (remove env).2 = (remove env2).2 := by
  have hc2 : env2.rm (coursierCachePath env2) = Except.ok () := by
    rw [← hrm, coursierCachePath, ← hh]
    exact hc
  have h12 : env2.rm (binDir env2 ++ "/cs") = Except.ok () := by
    rw [← hrm, binDir, ← hh]
    exact h1
  have h22 : env2.rm (binDir env2 ++ "/scalafmt") = Except.ok () := by
    rw [← hrm, binDir, ← hh]
    exact h2
  have h32 : env2.rm (binDir env2 ++ "/scalafix") = Except.ok () := by
    rw [← hrm, binDir, ← hh]
    exact h3
  constructor
  · simp [remove, andThen, hc, h1, h2, h3]
  · simp [remove, andThen, hc, h1, h2, h3, hc2, h12, h22, h32]

theorem remove_ok_when_deletions_succeed_witness :
    (remove envBase).2 = Except.ok () ∧
    (remove envBase).2 = (remove envRunWeird).2 :=
  remove_ok_when_deletions_succeed envBase envRunWeird rfl rfl rfl rfl rfl rfl

/-- C10: `remove()` issues deletions for exactly four paths — the coursier
cache directory and the three installed binaries under the home `bin`
directory — in a fixed order, with the global uninstall subcommand invoked
between the cache-directory deletion and the binary deletions; no deletion
of any other path is ever issued. -/
theorem remove_deletes_exactly_four_paths (env : Env)
    (hc : env.rm (coursierCachePath env) = Except.ok ())
    (h1 : env.rm (binDir env ++ "/cs") = Except.ok ())
    (h2 : env.rm (binDir env ++ "/scalafmt") = Except.ok ())
    (h3 : env.rm (binDir env ++ "/scalafix") = Except.ok ()) :
    fsEvents (remove env).1
      = [Event.rmRF (coursierCachePath env),
         Event.execCmd "cs" ["uninstall", "--all"],
         Event.rmRF (binDir env ++ "/cs"),
         Event.rmRF (binDir env ++ "/scalafmt"),
         Event.rmRF (binDir env ++ "/scalafix")] ∧
    (∀ p, Event.rmRF p ∈ (remove env).1 → p ∈ rmTargets env) := by
  constructor
  · simp [remove, andThen, hc, h1, h2, h3, fsEvents, fsEvents_append,
      fsEvents_map_debug]
  · intro p hp
    simp [remove, andThen, hc, h1, h2, h3] at hp
    simp [rmTargets]
    tauto

theorem remove_deletes_exactly_four_paths_witness :
    fsEvents (remove envBase).1
      = [Event.rmRF (coursierCachePath envBase),
         Event.execCmd "cs" ["uninstall", "--all"],
         Event.rmRF (binDir envBase ++ "/cs"),
         Event.rmRF (binDir envBase ++ "/scalafmt"),
         Event.rmRF (binDir envBase ++ "/scalafix")] ∧
    "/home/me/.cache/coursier/v1" ∈ rmTargets envBase := by
  have h := remove_deletes_exactly_four_paths envBase rfl rfl rfl rfl
  exact ⟨h.1, h.2 "/home/me/.cache/coursier/v1" (by decide)⟩

end Coursier
